import Mathlib

/-!
Verification of the gecto voice pipeline against its specification.

The definitions below are a shallow embedding of the TypeScript sources:

* `src/services/phone-bridge/src/audio.ts` (μ-law companding, linear
  resampling) — byte buffers become `List Nat` (each entry `< 256`),
  `Int16Array`s become `List Int` with explicit wrap-around where JavaScript
  performs the `ToInt16` conversion, and the IEEE-double index arithmetic of
  `resampleLinear` is embedded over `ℚ` (exact rational arithmetic).
* `src/services/ragnar-backend-v2/src/core/conversation.ts` (deterministic
  conversation core, word-bounded text chunking).
* `src/services/ragnar-backend-v2/src/core/session.ts` (inbound PCM buffer).
* `src/services/ragnar-backend-v2/src/index.ts` (WebSocket session: turn
  state machine, commit handling, turn pipeline).  Asynchronous turns are
  modelled in two phases: the synchronous part of a message handler runs in
  `stepMessage`, the queued remainder of an accepted turn in `finishTurn`.
* `src/services/ragnar-backend-v2/src/modules/asr/whisperCpp.ts` (ASR
  subprocess invocation with its one-shot text-output fallback).  Subprocess
  exits and output files are supplied by an explicit environment record.
* `src/services/phone-bridge/src/bridge.ts` and the relay server
  (pre-ready send queues).
* the two structured-log redaction functions
  (`phone-bridge/src/util/log.ts` and `ragnar-backend-v2/src/util/log.ts`).
-/

namespace Gecto

/-! ### Audio codec (phone-bridge `src/audio.ts`) -/

/-- `MULAW_BIAS` from the source. -/
def MULAW_BIAS : Nat := 0x84

/-- `MULAW_CLIP` from the source. -/
def MULAW_CLIP : Nat := 32635

/-- JavaScript `ToInt16`: wrap an integer into the signed 16-bit range, as
happens on every store into an `Int16Array`. -/
def toInt16 (v : Int) : Int :=
  let m := v % 65536
  if m ≥ 32768 then m - 65536 else m

/-- `muLawToLinear` from `audio.ts`.  For a byte `b < 256`, the JavaScript
expression `~b & 0xff` equals `b ^^^ 0xff`. -/
def muLawToLinear (b : Nat) : Int :=
  let value := (b &&& 0xff) ^^^ 0xff
  let sign := value &&& 0x80
  let exponent := (value &&& 0x70) >>> 4
  let mantissa := value &&& 0x0f
  let magnitude : Int := (((mantissa <<< 4) + 0x08) <<< (exponent + 3) : Nat)
  let r := magnitude - (MULAW_BIAS : Int)
  if sign ≠ 0 then -r else r

/-- The exponent-search loop of `linearToMuLaw`: starting from
`exponent = 7`, `expMask = 0x4000`, decrement while the mask bit is clear. -/
def muLawExpGo (v : Nat) : Nat → Nat → Nat
  | 0, _ => 0
  | e + 1, mask => if v &&& mask = 0 then muLawExpGo v e (mask >>> 1) else e + 1

/-- `linearToMuLaw` from `audio.ts` (the standard G.711 encoder). -/
def linearToMuLaw (sample : Int) : Nat :=
  let sign : Nat := if sample < 0 then 0x80 else 0
  let v0 : Nat := (if sample < 0 then -sample else sample).toNat
  let v1 : Nat := if v0 > MULAW_CLIP then MULAW_CLIP else v0
  let value := v1 + MULAW_BIAS
  let exponent := muLawExpGo value 7 0x4000
  let mantissa := (value >>> (exponent + 3)) &&& 0x0f
  (sign ||| (exponent <<< 4) ||| mantissa) ^^^ 0xff

/-- `decodeMuLaw`: map every μ-law byte through `muLawToLinear`; the store
into the result `Int16Array` applies `ToInt16`. -/
def decodeMuLaw (bytes : List Nat) : List Int :=
  bytes.map fun b => toInt16 (muLawToLinear b)

/-- `encodeMuLaw`: map every sample through `linearToMuLaw`. -/
def encodeMuLaw (samples : List Int) : List Nat :=
  samples.map linearToMuLaw

/-- `resampleLinear` from `audio.ts`.  The source computes over IEEE doubles;
the embedding carries the same expressions out in exact integer arithmetic:

* `Math.round(duration * outputRate)` with `duration = length / inputRate`
  is `⌊length·outputRate/inputRate + 1/2⌋ = (2·length·outputRate + inputRate)
  / (2·inputRate)` (`Math.round` rounds half up);
* `sourceIndex = (i / outputRate) * inputRate` is the exact fraction
  `(i·inputRate) / outputRate`, so `Math.floor(sourceIndex)` is the natural
  division `i·inputRate / outputRate` and `frac` is
  `(i·inputRate % outputRate) / outputRate`;
* the store `result[i] = s0 + (s1 - s0) * frac` truncates toward zero and
  wraps (`ToInt16`), i.e. `toInt16 (tdiv (s0·outputRate + (s1-s0)·r)
  outputRate)` with `r = i·inputRate % outputRate`.

All call sites use rates in `{8000, 16000, 24000}`; for `inputRate = 0` or
`outputRate = 0` the source divides by zero (NaN propagation) and the
embedding is not meaningful there. -/
def resampleLinear (samples : List Int) (inputRate outputRate : Nat) : List Int :=
  if inputRate = outputRate then samples
  else
    let outputLength : Nat :=
      max 1 ((2 * samples.length * outputRate + inputRate) / (2 * inputRate))
    (List.range outputLength).map fun i =>
      let idx := i * inputRate / outputRate
      let r := i * inputRate % outputRate
      let s0 := samples.getD idx (samples.getLastD 0)
      let s1 := samples.getD (idx + 1) s0
      toInt16 (Int.tdiv (s0 * (outputRate : Int) + (s1 - s0) * (r : Int)) (outputRate : Int))

/-! ### Backend audio utilities (`ragnar-backend-v2/src/util/audio.ts`) -/

/-- `frameBytes(sampleRate, frameMs = 20)`:
`Math.round(sampleRate * 20/1000) * 2`.  For the rates in use the product is
exact, so the rounded value is `sampleRate * 20 / 1000`; in the round-half-up
form used by `Math.round` this is `(2·sampleRate·20 + 1000) / 2000`. -/
def frameBytes (sampleRate : Nat) : Nat :=
  ((2 * (sampleRate * 20) + 1000) / 2000) * 2

/-- Structural worker for `chunksOf`: the fuel is an upper bound on the
number of produced pieces; `chunksOf` passes the list length, which always
suffices for a positive piece size. -/
def chunksOfAux (b : Nat) : Nat → List α → List (List α)
  | _, [] => []
  | 0, _ :: _ => []
  | fuel + 1, x :: xs => (x :: xs).take b :: chunksOfAux b fuel ((x :: xs).drop b)

/-- Split a list into consecutive pieces of `b` elements (the last piece may
be shorter), as `chunkPcm16`'s subarray loop does.  The source loop does not
terminate for `b = 0`; that case is unreachable (the frame size is at least
320 bytes for the rates in use) and the embedding returns `[]` there. -/
def chunksOf (b : Nat) (l : List α) : List (List α) :=
  if b = 0 then [] else chunksOfAux b l.length l

/-- `chunkPcm16(pcm, sampleRate)`: split PCM bytes into 20 ms frames. -/
def chunkPcm16 (pcm : List Nat) (sampleRate : Nat) : List (List Nat) :=
  chunksOf (frameBytes sampleRate) pcm

/-! ### String helpers

Lean's own `String.trim`, `String.split` and `String.length` are defined
through byte-position recursion that the kernel does not reduce, so the
embedding re-implements them structurally over the underlying character
lists.  JavaScript's `\s` class and UTF-16 `.length` agree with
`Char.isWhitespace` and the code-point count on the ASCII data handled
here. -/

/-- Character-level `String.prototype.trim`: drop whitespace from both
ends. -/
def trimChars (l : List Char) : List Char :=
  ((l.dropWhile Char.isWhitespace).reverse.dropWhile Char.isWhitespace).reverse

/-- `value.trim()` on strings. -/
def jsTrim (s : String) : String := String.mk (trimChars s.data)

/-- JavaScript `.length` (structurally reducible). -/
def strLen (s : String) : Nat := s.data.length

/-- Split at every whitespace character (empty pieces included, as
`split` produces them between consecutive separators). -/
def splitWsGo : List Char → List Char → List String
  | [], cur => [String.mk cur.reverse]
  | c :: rest, cur =>
    if c.isWhitespace then String.mk cur.reverse :: splitWsGo rest []
    else splitWsGo rest (c :: cur)

/-! ### Conversation core (`ragnar-backend-v2/src/core/conversation.ts`) -/

/-- `ConversationCore.respond` with the post-increment turn counter `n`:
builds the deterministic acknowledgment reply. -/
def convoRespond (n : Nat) (userText : String) (instructions : Option String) : String :=
  let u := jsTrim userText
  let instruction := (instructions.map jsTrim).getD ""
  let preface := "Ragnar (" ++ toString n ++ "): "
  let base :=
    if u ≠ "" then "I heard: \"" ++ u ++ "\"." else "I didn't catch that clearly."
  let followUp := " What would you like to do next?"
  let extra :=
    if instruction ≠ "" then " (I also noted your instruction: " ++ instruction ++ ")" else ""
  preface ++ base ++ extra ++ followUp

/-- The word list of a text: `text.split(/\s+/).filter(Boolean)` — maximal
runs of non-whitespace characters.  Splitting on each whitespace character
and filtering the empty pieces yields the same list as splitting on runs. -/
def wordsOf (text : String) : List String :=
  (splitWsGo text.data []).filter (· ≠ "")

/-- `cur.join(" ")` (array join with a single-space separator). -/
def joinSpace : List String → String
  | [] => ""
  | [w] => w
  | w :: ws => w ++ " " ++ joinSpace ws

/-- The greedy accumulation loop of `ConversationCore.chunkText`, kept at the
level of word groups: `cur` is the current group, the returned list is the
sequence of groups pushed to `out`. -/
def chunkGroups (maxLen : Nat) : List String → List String → List (List String)
  | cur, [] => if cur = [] then [] else [cur]
  | cur, w :: ws =>
    let cand := if cur = [] then w else joinSpace cur ++ " " ++ w
    if strLen cand > maxLen ∧ cur ≠ [] then cur :: chunkGroups maxLen [w] ws
    else chunkGroups maxLen (cur ++ [w]) ws

/-- `ConversationCore.chunkText(text, maxLen = 80)`: word-bounded chunks,
each chunk the space-join of one group. -/
def chunkText (maxLen : Nat) (text : String) : List String :=
  (chunkGroups maxLen [] (wordsOf text)).map joinSpace

/-! ### TTS sentence splitting (`splitForTts` in the backend session) -/

/-- Is a sentence-terminal character (`[.?!]` of the lookbehind)? -/
def isSentenceEnd (c : Char) : Bool := c = '.' ∨ c = '!' ∨ c = '?'

/-- `t.split(/(?<=[.!?])\s+/g)`: split at maximal whitespace runs whose
first character is directly preceded by a sentence-terminal character.
`cur` holds the current piece in reverse; the fuel (the remaining length)
makes the recursion structural. -/
def sentSplitAux : Nat → List Char → List Char → List String
  | _, [], cur => [String.mk cur.reverse]
  | 0, _ :: _, cur => [String.mk cur.reverse]
  | fuel + 1, c :: rest, cur =>
    if c.isWhitespace ∧ (match cur with | p :: _ => isSentenceEnd p | [] => false) = true then
      String.mk cur.reverse :: sentSplitAux fuel (rest.dropWhile Char.isWhitespace) []
    else sentSplitAux fuel rest (c :: cur)

/-- The greedy ≤ 180-character merge loop of `splitForTts`. -/
def ttsMergeGo (maxLen : Nat) : List String → String → List String
  | [], cur => if cur ≠ "" then [cur] else []
  | s :: ss, cur =>
    let nxt := if cur ≠ "" then cur ++ " " ++ s else s
    if strLen nxt > maxLen ∧ cur ≠ "" then cur :: ttsMergeGo maxLen ss s
    else ttsMergeGo maxLen ss nxt

/-- `splitForTts` from the backend session: trim, split into sentences,
merge greedily into chunks of at most 180 characters. -/
def splitForTts (text : String) : List String :=
  let t := jsTrim text
  if t = "" then []
  else ttsMergeGo 180 (sentSplitAux t.data.length t.data []) ""

/-! ### Backend session (`ragnar-backend-v2/src/index.ts`, `core/session.ts`)

The WebSocket handler is asynchronous: `handleCommit` runs synchronously up
to its first `await` (the in-flight check, `inFlight = true`, and
`consumeBufferedAudio`), after which the rest of the turn runs while further
messages may be processed.  The embedding splits every handler into the
synchronous step (`stepMessage`, returning an optional started turn) and the
queued remainder (`finishTurn`).  Subprocess results (ASR, TTS) and the
generated `responseId` are supplied as explicit oracles.  Only the log
stages that the specification names (`commit_ignored`, `empty_transcript`,
`tts_error`, …) are tracked. -/

/-- `RELAY_INPUT_SAMPLE_RATE` default. -/
def relayInputSampleRate : Nat := 16000

/-- `RELAY_OUTPUT_SAMPLE_RATE` default. -/
def defaultRelayOutputSampleRate : Nat := 24000

/-- The server→client events of the wire protocol (`RelayEvent` in the
source).  `audio_delta` payloads are kept as raw PCM bytes; the source
base64-encodes them just before serialization, which is injective framing. -/
inductive RelayEvent where
  | ready (inputSampleRate outputSampleRate : Nat)
  | error (error : String)
  | textDelta (text : String)
  | textCompleted (text : String)
  | audioDelta (audio : List Nat)
  | responseCompleted (responseId : String)
  | transcript (text : String)
deriving DecidableEq

/-- Discriminator for `text_completed`. -/
def RelayEvent.isTextCompleted : RelayEvent → Bool
  | .textCompleted _ => true
  | _ => false

/-- Discriminator for `audio_delta`. -/
def RelayEvent.isAudioDelta : RelayEvent → Bool
  | .audioDelta _ => true
  | _ => false

/-- Discriminator for `response_completed`. -/
def RelayEvent.isResponseCompleted : RelayEvent → Bool
  | .responseCompleted _ => true
  | _ => false

/-- Discriminator for `error`. -/
def RelayEvent.isError : RelayEvent → Bool
  | .error _ => true
  | _ => false

/-- Discriminator for `text_delta`. -/
def RelayEvent.isTextDelta : RelayEvent → Bool
  | .textDelta _ => true
  | _ => false

/-- The payload of a `text_delta` event. -/
def RelayEvent.textDeltaPayload : RelayEvent → Option String
  | .textDelta t => some t
  | _ => none

/-- The payload of a `text_completed` event. -/
def RelayEvent.textCompletedPayload : RelayEvent → Option String
  | .textCompleted t => some t
  | _ => none

/-- Per-connection state: the `SessionState` record of `core/session.ts`
(inbound PCM buffer, as a list of byte chunks) together with the closure
variables of the connection handler (`inFlight`, the conversation core's
turn counter, the negotiated output rate). -/
structure BackendSession where
  inFlight : Bool
  bufferedPcm : List (List Nat)
  bufferedBytes : Nat
  bufferedChunks : Nat
  convoTurn : Nat
  outputRate : Nat
deriving DecidableEq

/-- `createSession` plus the handler's initial closure state. -/
def createSession : BackendSession :=
  { inFlight := false, bufferedPcm := [], bufferedBytes := 0, bufferedChunks := 0,
    convoTurn := 0, outputRate := defaultRelayOutputSampleRate }

/-- `appendAudioChunk` from `core/session.ts`. -/
def appendAudioChunk (s : BackendSession) (chunk : List Nat) : BackendSession :=
  { s with bufferedPcm := s.bufferedPcm ++ [chunk],
           bufferedBytes := s.bufferedBytes + chunk.length,
           bufferedChunks := s.bufferedChunks + 1 }

/-- `consumeBufferedAudio` from `core/session.ts`: concatenate everything,
reset the buffer. -/
def consumeBufferedAudio (s : BackendSession) : List Nat × BackendSession :=
  (s.bufferedPcm.flatten,
   { s with bufferedPcm := [], bufferedBytes := 0, bufferedChunks := 0 })

/-- The synthesis loop of `handleTurnFromText`: parts are synthesized in
order (the oracle maps the 1-based part index and text to the PCM output, or
`none` for a subprocess failure); each result is framed by `chunkPcm16` and
emitted as `audio_delta` events.  A failure throws, so later parts emit
nothing; the returned flag records whether the catch block ran. -/
def runTtsLoop (tts : Nat → String → Option (List Nat)) (outRate : Nat) :
    Nat → List String → List RelayEvent × Bool
  | _, [] => ([], false)
  | i, part :: rest =>
    match tts i part with
    | none => ([], true)
    | some pcm =>
      let frames := (chunkPcm16 pcm outRate).map RelayEvent.audioDelta
      let r := runTtsLoop tts outRate (i + 1) rest
      (frames ++ r.1, r.2)

/-- Result of running a turn pipeline. -/
structure TurnResult where
  events : List RelayEvent
  convoTurn : Nat
  logs : List String
deriving DecidableEq

/-- `handleTurnFromText` from the backend session (the full turn pipeline
from a user text).  `ct` is the conversation core's turn counter before the
call, `rid` the generated `responseId`. -/
def handleTurnFromText (ct : Nat) (userText : String) (instructions : Option String)
    (rid : String) (tts : Nat → String → Option (List Nat)) (outRate : Nat) : TurnResult :=
  let transcript := jsTrim userText
  if transcript = "" then
    { events := [.responseCompleted rid], convoTurn := ct, logs := ["empty_transcript"] }
  else
    let n := ct + 1
    let respText := convoRespond n transcript instructions
    let deltas := (chunkText 80 respText).map RelayEvent.textDelta
    let r := runTtsLoop tts outRate 1 (splitForTts respText)
    { events := [.transcript transcript] ++ deltas ++ [.textCompleted respText]
        ++ r.1 ++ [.responseCompleted rid],
      convoTurn := n,
      logs := if r.2 then ["tts_error"] else ["tts_done"] }

/-- A turn whose asynchronous remainder is still to run. -/
inductive PendingTurn where
  | fromCommit (audio : List Nat) (instructions : Option String)
  | fromText (text : String)
deriving DecidableEq

/-- Result of the synchronous part of one message handler. -/
structure StepResult where
  state : BackendSession
  events : List RelayEvent
  logs : List String
  started : Option PendingTurn
  closes : Bool
deriving DecidableEq

/-- The synchronous prefix of `handleCommit`: the in-flight guard, then
`inFlight = true` and the atomic buffer take. -/
def handleCommitStart (s : BackendSession) (instructions : Option String) : StepResult :=
  if s.inFlight then
    { state := s, events := [], logs := ["commit_ignored"], started := none, closes := false }
  else
    let taken := consumeBufferedAudio { s with inFlight := true }
    { state := taken.2, events := [], logs := [],
      started := some (.fromCommit taken.1 instructions), closes := false }

/-- The client→server messages handled by `socket.on("message")`.
`audio_chunk` payloads are carried as decoded bytes; the source rejects a
missing/empty `audio` string, which corresponds to the empty byte list. -/
inductive ClientMsg where
  | start (outputSampleRate : Option Nat)
  | audioChunk (audio : List Nat)
  | commit (instructions : Option String)
  | text (text : String)
  | endSession
deriving DecidableEq

/-- The synchronous handling of one incoming message (the `switch` in
`socket.on("message")`). -/
def stepMessage (s : BackendSession) : ClientMsg → StepResult
  | .start requested =>
    let newRate :=
      match requested with
      | some r => if r = 8000 ∨ r = 16000 ∨ r = 24000 then r else defaultRelayOutputSampleRate
      | none => defaultRelayOutputSampleRate
    { state := { s with outputRate := newRate },
      events := [.ready relayInputSampleRate newRate],
      logs := ["start_received"], started := none, closes := false }
  | .audioChunk audio =>
    if audio = [] then
      { state := s, events := [.error "audio_chunk payload missing base64 audio field"],
        logs := ["ws_message_error"], started := none, closes := false }
    else
      { state := appendAudioChunk s audio, events := [], logs := [],
        started := none, closes := false }
  | .commit instructions =>
    let r := handleCommitStart s instructions
    { r with logs := "commit_received" :: r.logs }
  | .text t =>
    let txt := jsTrim t
    if txt = "" then
      { state := s, events := [.error "text payload must include non-empty text field"],
        logs := ["ws_message_error"], started := none, closes := false }
    else
      { state := s, events := [], logs := ["text_received"],
        started := some (.fromText txt), closes := false }
  | .endSession =>
    { state := s, events := [], logs := [], started := none, closes := true }

/-- Outcome of one `transcribePcm16kMono` call as seen by `handleCommit`. -/
inductive AsrOutcome where
  | ok (text : String)
  | err (msg : String)
deriving DecidableEq

/-- The asynchronous remainder of a started turn: for a commit turn, the
body of `handleCommit` after the buffer take (empty-buffer short cut, ASR,
pipeline, and the `finally` clause resetting `inFlight`); for a text turn,
just `handleTurnFromText` — the source never touches `inFlight` there. -/
def finishTurn (s : BackendSession) (p : PendingTurn) (asr : AsrOutcome) (rid : String)
    (tts : Nat → String → Option (List Nat)) : BackendSession × List RelayEvent × List String :=
  match p with
  | .fromText t =>
    let r := handleTurnFromText s.convoTurn t none rid tts s.outputRate
    ({ s with convoTurn := r.convoTurn }, r.events, r.logs)
  | .fromCommit audio instructions =>
    if audio = [] then
      let r := handleTurnFromText s.convoTurn "" instructions rid tts s.outputRate
      ({ s with convoTurn := r.convoTurn, inFlight := false }, r.events, r.logs)
    else
      match asr with
      | .ok text =>
        let r := handleTurnFromText s.convoTurn text instructions rid tts s.outputRate
        ({ s with convoTurn := r.convoTurn, inFlight := false }, r.events, r.logs)
      | .err msg =>
        ({ s with inFlight := false }, [.error msg], ["asr_error"])

/-! ### ASR subprocess (`modules/asr/whisperCpp.ts`)

File contents produced by the subprocess (the parsed JSON transcription and
the fallback `.txt` file) and the two process exits are supplied by an
environment record; the claims under scrutiny only concern the retry and
failure logic. -/

/-- One captured subprocess run. -/
structure ExecResult where
  code : Int
  stdout : String
  stderr : String
deriving DecidableEq

/-- Environment of one `transcribePcm16kMono` call: the (up to) two
subprocess runs and the output files' text. -/
structure AsrEnv where
  firstExec : ExecResult
  secondExec : ExecResult
  jsonText : String
  txtText : String
deriving DecidableEq

/-- The primary whisper.cpp invocation's argument list (JSON output). -/
def whisperJsonArgs (modelPath wavPath outBase : String) : List String :=
  ["-m", modelPath, "-f", wavPath, "-oj", "-of", outBase, "-nt"]

/-- The fallback invocation's argument list (text output). -/
def whisperTxtArgs (modelPath wavPath outBase : String) : List String :=
  ["-m", modelPath, "-f", wavPath, "-otxt", "-of", outBase, "-nt"]

/-- `s.slice(0, 800)`. -/
def preview800 (s : String) : String := String.mk (s.data.take 800)

/-- `x || "(empty)"`. -/
def orEmptyTag (s : String) : String := if s = "" then "(empty)" else s

/-- The error message thrown when the fallback also exits non-zero. -/
def whisperFailureMessage (env : AsrEnv) : String :=
  "whisper.cpp failed (code " ++ toString env.firstExec.code ++ "). stdout=" ++
    orEmptyTag (preview800 env.firstExec.stdout) ++ " stderr=" ++
    orEmptyTag (preview800 env.firstExec.stderr) ++ ". " ++
    "Fallback -otxt also failed (code " ++ toString env.secondExec.code ++ "). stdout=" ++
    orEmptyTag (preview800 env.secondExec.stdout) ++ " stderr=" ++
    orEmptyTag (preview800 env.secondExec.stderr)

/-- `WhisperCppAsr.transcribePcm16kMono`: returns the argument lists of the
subprocess invocations actually performed, and the transcript or the thrown
error.  On a clean first exit the transcript is the coerced JSON text; on a
first failure the same binary is re-invoked once with `-otxt` and the `.txt`
file is read and trimmed; a second failure throws. -/
def transcribePcm16kMono (modelPath wavPath outBase : String) (env : AsrEnv) :
    List (List String) × Except String String :=
  if env.firstExec.code = 0 then
    ([whisperJsonArgs modelPath wavPath outBase], .ok env.jsonText)
  else if env.secondExec.code = 0 then
    ([whisperJsonArgs modelPath wavPath outBase, whisperTxtArgs modelPath wavPath outBase],
     .ok (jsTrim env.txtText))
  else
    ([whisperJsonArgs modelPath wavPath outBase, whisperTxtArgs modelPath wavPath outBase],
     .error (whisperFailureMessage env))

/-- The `AsrOutcome` that `handleCommit` observes from a transcription
environment (`asrRes.text || ""` on success, the caught message on
failure). -/
def asrOutcomeOfEnv (modelPath wavPath outBase : String) (env : AsrEnv) : AsrOutcome :=
  match (transcribePcm16kMono modelPath wavPath outBase env).2 with
  | .ok t => .ok t
  | .error m => .err m

/-! ### Pre-ready send queues

`PhoneBridgeManager.dispatchToRelay` / `flushQueue` (phone-bridge
`bridge.ts`) and the relay server's `pendingForBackend` handling. -/

/-- The queue-relevant part of a `BridgeSession`. -/
structure BridgeLink where
  relayReady : Bool
  socketOpen : Bool
  relaySendQueue : List String
deriving DecidableEq

/-- `dispatchToRelay`: send immediately when ready and open, otherwise push
onto the queue.  The returned list holds the frames actually sent. -/
def dispatchToRelay (s : BridgeLink) (payload : String) : BridgeLink × List String :=
  if s.relayReady ∧ s.socketOpen then (s, [payload])
  else ({ s with relaySendQueue := s.relaySendQueue ++ [payload] }, [])

/-- Fold `dispatchToRelay` over a sequence of frames. -/
def dispatchList (s : BridgeLink) : List String → BridgeLink × List String
  | [] => (s, [])
  | p :: ps =>
    let r1 := dispatchToRelay s p
    let r2 := dispatchList r1.1 ps
    (r2.1, r1.2 ++ r2.2)

/-- `flushQueue`: while ready and open, shift-and-send until empty. -/
def flushQueue (s : BridgeLink) : BridgeLink × List String :=
  if s.relayReady ∧ s.socketOpen then ({ s with relaySendQueue := [] }, s.relaySendQueue)
  else (s, [])

/-- The queue-relevant part of one relay connection (`voice-relay-server`). -/
structure RelayConn where
  backendReady : Bool
  backendOpen : Bool
  pendingForBackend : List String
deriving DecidableEq

/-- The forwarding part of the relay's `client.on("message")`: forward when
the backend socket is ready and open, otherwise push onto
`pendingForBackend`. -/
def relayClientMessage (s : RelayConn) (raw : String) : RelayConn × List String :=
  if s.backendReady ∧ s.backendOpen then (s, [raw])
  else ({ s with pendingForBackend := s.pendingForBackend ++ [raw] }, [])

/-- Fold `relayClientMessage` over a sequence of frames. -/
def relayClientList (s : RelayConn) : List String → RelayConn × List String
  | [] => (s, [])
  | p :: ps =>
    let r1 := relayClientMessage s p
    let r2 := relayClientList r1.1 ps
    (r2.1, r1.2 ++ r2.2)

/-! ### Log redaction

Two distinct implementations exist in the sources: the phone-bridge logger
(`phone-bridge/src/util/log.ts`, keyed audio redaction plus a base64
heuristic plus token masking) and the backend logger
(`ragnar-backend-v2/src/util/log.ts`, token masking only).  The three
`replace` regexes are embedded as left-to-right scanners, exactly one pass
per pattern, longest (greedy) match at each position, as JavaScript's
global `replace` performs them. -/

/-- A JSON field value as seen by the `JSON.stringify` replacer: only the
string case is redacted, everything else passes through. -/
inductive JValue where
  | str (s : String)
  | other
deriving DecidableEq

/-- A character of the base64 heuristic's charset `[A-Za-z0-9+/=]`. -/
def isB64Char (c : Char) : Bool := c.isAlphanum ∨ c = '+' ∨ c = '/' ∨ c = '='

/-- `looksLikeBase64Audio` from the phone-bridge logger: length at least
256, no whitespace, every character in the base64 charset. -/
def looksLikeBase64Audio (s : String) : Bool :=
  if strLen s < 256 then false
  else if s.data.any Char.isWhitespace then false
  else if ¬(s.data ≠ [] ∧ s.data.all isB64Char) then false
  else true

/-- A character of the bearer-token tail `[A-Za-z0-9._-]`. -/
def isBearerTailChar (c : Char) : Bool := c.isAlphanum ∨ c = '.' ∨ c = '_' ∨ c = '-'

/-- A character of the value class `[^\s"']`. -/
def isValueChar (c : Char) : Bool := ¬(c.isWhitespace ∨ c = '"' ∨ c = '\'')

/-- Case-insensitive literal match; returns the remainder on success. -/
def matchCI : List Char → List Char → Option (List Char)
  | [], l => some l
  | _ :: _, [] => none
  | p :: ps, c :: cs => if p.toLower = c.toLower then matchCI ps cs else none

/-- Try `/Bearer\s+[A-Za-z0-9._-]+/` at the head of the list; on success
return the replacement text and the remainder after the match. -/
def matchBearerAt (l : List Char) : Option (List Char × List Char) :=
  if l.take 6 = "Bearer".data then
    let rest := l.drop 6
    let ws := rest.takeWhile Char.isWhitespace
    if ws = [] then none
    else
      let rest2 := rest.drop ws.length
      let tok := rest2.takeWhile isBearerTailChar
      if tok = [] then none
      else some ("Bearer [REDACTED]".data, rest2.drop tok.length)
  else none

/-- Try `(head\s*[:=]\s*)([^\s"']+)` at the head of the list, where `head`
is matched by the supplied matcher; group 1 (in its original spelling) is
kept and the value group becomes `[REDACTED]`. -/
def matchNameSepAt (headMatch : List Char → Option (List Char)) (l : List Char) :
    Option (List Char × List Char) :=
  match headMatch l with
  | none => none
  | some r1 =>
    match r1.dropWhile Char.isWhitespace with
    | [] => none
    | c :: cs =>
      if c = ':' ∨ c = '=' then
        let r3 := cs.dropWhile Char.isWhitespace
        let tok := r3.takeWhile isValueChar
        if tok = [] then none
        else some (l.take (l.length - r3.length) ++ "[REDACTED]".data, r3.drop tok.length)
      else none

/-- The head of `/api[_-]?key/i`. -/
def apiKeyHead (l : List Char) : Option (List Char) :=
  match matchCI "api".data l with
  | none => none
  | some r1 =>
    match r1 with
    | c :: cs => if c = '_' ∨ c = '-' then matchCI "key".data cs else matchCI "key".data r1
    | [] => none

/-- The head of `/token/i`. -/
def tokenHead (l : List Char) : Option (List Char) := matchCI "token".data l

/-- One global-`replace` pass: scan left to right, substituting each match
and continuing after it.  The fuel (the initial length) is enough because
every step consumes at least one character. -/
def replaceScan (m : List Char → Option (List Char × List Char)) :
    Nat → List Char → List Char
  | _, [] => []
  | 0, l => l
  | fuel + 1, c :: rest =>
    match m (c :: rest) with
    | some (rep, remainder) => rep ++ replaceScan m fuel remainder
    | none => c :: replaceScan m fuel rest

/-- Apply one pattern globally to a character list. -/
def replaceAllPat (m : List Char → Option (List Char × List Char)) (l : List Char) :
    List Char :=
  replaceScan m l.length l

/-- The common token-masking chain (`Bearer`, `api_key`, `token` patterns in
that order), shared verbatim by both loggers. -/
def maskTokens (v : String) : String :=
  String.mk (replaceAllPat (matchNameSepAt tokenHead)
    (replaceAllPat (matchNameSepAt apiKeyHead)
      (replaceAllPat matchBearerAt v.data)))

/-- The backend logger's `redact`: token masking only — no keyed audio
redaction and no base64 heuristic. -/
def backendRedact : JValue → JValue
  | .str v => .str (maskTokens v)
  | .other => .other

/-- The key set of the phone-bridge logger's audio redaction. -/
def audioRedactKeys : List String := ["audio", "payload", "pcm", "pcm16", "mulaw"]

/-- The phone-bridge logger's `redactString`: base64 heuristic first, then
token masking. -/
def phoneRedactString (v : String) : String :=
  if looksLikeBase64Audio v then "[REDACTED_BASE64]" else maskTokens v

/-- The phone-bridge logger's `redact(key, value)`. -/
def phoneRedact (key : String) : JValue → JValue
  | .str v =>
    if audioRedactKeys.contains key then .str "[REDACTED_AUDIO]"
    else .str (phoneRedactString v)
  | .other => .other

/-- The phone-bridge `safeJson` replacer applied to a flat field record. -/
def phoneSafeMeta (meta : List (String × JValue)) : List (String × JValue) :=
  meta.map fun kv => (kv.1, phoneRedact kv.1 kv.2)

/-- The backend `baseLog` replacer applied to a flat field record (the
replacer ignores the key entirely). -/
def backendSafeMeta (meta : List (String × JValue)) : List (String × JValue) :=
  meta.map fun kv => (kv.1, backendRedact kv.2)

/-- Fold `appendAudioChunk` over a sequence of arriving chunks. -/
def appendChunks (s : BackendSession) (cs : List (List Nat)) : BackendSession :=
  cs.foldl appendAudioChunk s

/-! ## Helper lemmas -/

theorem toInt16_eq_self {v : Int} (h1 : -32768 ≤ v) (h2 : v < 32768) : toInt16 v = v := by
  unfold toInt16
  dsimp only
  split <;> omega

theorem dispatchList_queue (ps : List String) : ∀ s : BridgeLink,
    ¬(s.relayReady = true ∧ s.socketOpen = true) →
    dispatchList s ps = ({ s with relaySendQueue := s.relaySendQueue ++ ps }, []) := by
  induction ps with
  | nil => intro s _; simp [dispatchList]
  | cons p ps ih =>
    intro s h
    show (let r1 := dispatchToRelay s p
          let r2 := dispatchList r1.1 ps
          (r2.1, r1.2 ++ r2.2)) = _
    rw [show dispatchToRelay s p
          = ({ s with relaySendQueue := s.relaySendQueue ++ [p] }, []) from if_neg h]
    dsimp only
    rw [ih _ (by simpa using h)]
    simp

theorem relayClientList_queue (ps : List String) : ∀ s : RelayConn,
    ¬(s.backendReady = true ∧ s.backendOpen = true) →
    relayClientList s ps = ({ s with pendingForBackend := s.pendingForBackend ++ ps }, []) := by
  induction ps with
  | nil => intro s _; simp [relayClientList]
  | cons p ps ih =>
    intro s h
    show (let r1 := relayClientMessage s p
          let r2 := relayClientList r1.1 ps
          (r2.1, r1.2 ++ r2.2)) = _
    rw [show relayClientMessage s p
          = ({ s with pendingForBackend := s.pendingForBackend ++ [p] }, []) from if_neg h]
    dsimp only
    rw [ih _ (by simpa using h)]
    simp

/-! ## Claim C3 — pre-ready send queues

The claim asserts a 1,000-entry bound with drop-oldest and a warning; in the
source neither the bridge's `relaySendQueue` nor the relay's
`pendingForBackend` is bounded: a frame queued while the downstream is not
ready is always appended and nothing is ever dropped. -/

set_option maxRecDepth 10000 in
/-- C3 (counterexample): starting from an empty queue with the relay not yet
ready, dispatching 1,001 frames leaves all 1,001 of them queued — the
claimed 1,000-entry bound with drop-oldest does not exist in the code. -/
theorem c3_counterexample :
    ((dispatchList { relayReady := false, socketOpen := false, relaySendQueue := [] }
        (List.replicate 1001 "frame")).1.relaySendQueue).length = 1001 := by
  rw [dispatchList_queue _ _ (by simp)]
  simp

/-- C3 (amended): both pre-ready queues are unbounded FIFOs — while the
downstream is not ready, every dispatched frame is appended to the queue and
no queued entry is ever dropped, whatever the current queue size. -/
theorem c3_queues_unbounded (s : BridgeLink) (t : RelayConn) (p : String)
    (hs : ¬(s.relayReady = true ∧ s.socketOpen = true))
    (ht : ¬(t.backendReady = true ∧ t.backendOpen = true)) :
    dispatchToRelay s p = ({ s with relaySendQueue := s.relaySendQueue ++ [p] }, []) ∧
    relayClientMessage t p = ({ t with pendingForBackend := t.pendingForBackend ++ [p] }, []) ∧
    (∀ ps : List String,
      (dispatchList s ps).1.relaySendQueue = s.relaySendQueue ++ ps) ∧
    (∀ ps : List String,
      (relayClientList t ps).1.pendingForBackend = t.pendingForBackend ++ ps) := by
  refine ⟨if_neg hs, if_neg ht, fun ps => ?_, fun ps => ?_⟩
  · rw [dispatchList_queue ps s hs]
  · rw [relayClientList_queue ps t ht]

/-- C3 (witness): with 1,000 entries already queued and the relay not ready,
one more dispatch yields a 1,001-entry queue. -/
theorem c3_queues_unbounded_witness :
    (dispatchToRelay
        { relayReady := false, socketOpen := false,
          relaySendQueue := List.replicate 1000 "x" } "y")
      = ({ relayReady := false, socketOpen := false,
           relaySendQueue := List.replicate 1000 "x" ++ ["y"] }, []) :=
  (c3_queues_unbounded
    { relayReady := false, socketOpen := false, relaySendQueue := List.replicate 1000 "x" }
    { backendReady := false, backendOpen := false, pendingForBackend := [] } "y"
    (by simp) (by simp)).1

/-! ## Claim C8 — μ-law round trip

The spec (§4.1, §8 property 4) prescribes the standard G.711 companding and
an idempotent μ-law → PCM → μ-law round trip.  `linearToMuLaw` is the
standard G.711 encoder, but `muLawToLinear` computes
`((mantissa << 4) + 8) << (exponent + 3)` instead of the standard
`((mantissa << 3) + 0x84) << exponent`, producing magnitudes up to 253,820
that wrap around in the `Int16Array`; the round trip is not idempotent on
any byte. -/

/-- C8: evaluating the code at the failing input: for the μ-law byte `0x00`,
one decode–encode pass yields `0x9F` and a second pass yields `0xAF` — the
second pass is not the identity on the image of the first, contradicting the
claimed idempotence (the same computation refutes it for every byte). -/
theorem c8_roundtrip_not_idempotent :
    encodeMuLaw (decodeMuLaw [0]) = [159] ∧
    encodeMuLaw (decodeMuLaw (encodeMuLaw (decodeMuLaw [0]))) = [175] ∧
    encodeMuLaw (decodeMuLaw (encodeMuLaw (decodeMuLaw [0])))
      ≠ encodeMuLaw (decodeMuLaw [0]) := by
  refine ⟨by decide, by decide, by decide⟩

/-! ## Claim C9 — linear resampling

The claim's output length `round(inputLength · outRate / inRate)` holds only
up to the `Math.max(1, ·)` clamp the source applies (and only when the rates
differ; equal rates return the input unchanged).  An empty input therefore
resamples to a single zero sample rather than to an empty output. -/

/-- C9 (counterexample): resampling an empty input between distinct rates
returns one (zero) sample, where the claimed formula
`round(0 · 16000 / 8000) = 0` demands an empty output. -/
theorem c9_counterexample :
    resampleLinear [] 8000 16000 = [0] ∧ (resampleLinear [] 8000 16000).length = 1 := by
  refine ⟨by decide, by decide⟩

/-- C9 (amended): for positive, distinct rates the output length is
`max 1 (round(inputLength · outRate / inRate))` (round half up, exact
rational arithmetic); equal rates return the input unchanged; and every
output position whose source index reaches the last input sample repeats
that sample (edge clamping), provided the samples are genuine 16-bit values
(the empty input yields the zero sample). -/
theorem c9_resample_length_clamp (samples : List Int) (inputRate outputRate : Nat)
    (hin : 0 < inputRate) (hout : 0 < outputRate) (hne : inputRate ≠ outputRate)
    (h16 : ∀ x ∈ samples, -32768 ≤ x ∧ x < 32768) :
    (resampleLinear samples inputRate outputRate).length
      = max 1 (⌊((samples.length * outputRate : ℕ) : ℚ) / (inputRate : ℚ) + 1/2⌋).toNat ∧
    resampleLinear samples inputRate inputRate = samples ∧
    (∀ i, i < (resampleLinear samples inputRate outputRate).length →
      samples.length - 1 ≤ i * inputRate / outputRate →
      (resampleLinear samples inputRate outputRate).getD i 0 = samples.getLastD 0) := by
  have hout0 : (outputRate : Int) ≠ 0 := by
    exact_mod_cast Nat.pos_iff_ne_zero.mp hout
  have key : (2 * samples.length * outputRate + inputRate) / (2 * inputRate)
      = (⌊((samples.length * outputRate : ℕ) : ℚ) / (inputRate : ℚ) + 1/2⌋).toNat := by
    have hinq : (inputRate : ℚ) ≠ 0 := Nat.cast_ne_zero.mpr (Nat.pos_iff_ne_zero.mp hin)
    have h2 : ((samples.length * outputRate : ℕ) : ℚ) / (inputRate : ℚ) + 1/2
        = ((2 * samples.length * outputRate + inputRate : ℕ) : ℚ)
            / ((2 * inputRate : ℕ) : ℚ) := by
      push_cast
      field_simp
      ring
    rw [h2, Int.floor_toNat, Nat.floor_div_nat, Nat.floor_natCast]
  refine ⟨?_, ?_, ?_⟩
  · unfold resampleLinear
    rw [if_neg hne]
    dsimp only
    rw [List.length_map, List.length_range, key]
  · unfold resampleLinear
    rw [if_pos rfl]
  · intro i hi hidx
    unfold resampleLinear at hi ⊢
    rw [if_neg hne] at hi ⊢
    dsimp only at hi ⊢
    rw [List.length_map, List.length_range] at hi
    rw [List.getD_eq_getElem _ _ (by simpa using hi)]
    simp only [List.getElem_map, List.getElem_range]
    have hs0 : samples.getD (i * inputRate / outputRate) (samples.getLastD 0)
        = samples.getLastD 0 := by
      by_cases hlt : i * inputRate / outputRate < samples.length
      · have hlen : 0 < samples.length := by omega
        have hidx' : i * inputRate / outputRate = samples.length - 1 := by omega
        rw [List.getD_eq_getElem _ _ hlt]
        have hnil : samples ≠ [] := by
          cases samples with
          | nil => simp at hlen
          | cons a as => simp
        rw [List.getLastD_eq_getLast?, List.getLast?_eq_getLast _ hnil,
          List.getLast_eq_getElem]
        simp [hidx']
      · rw [List.getD_eq_default _ _ (by omega)]
    rw [hs0]
    rw [List.getD_eq_default _ _ (by omega)]
    have hlast16 : -32768 ≤ samples.getLastD 0 ∧ samples.getLastD 0 < 32768 := by
      cases samples with
      | nil => refine ⟨by decide, by decide⟩
      | cons a as =>
        have hnil : (a :: as) ≠ [] := by simp
        rw [List.getLastD_eq_getLast?, List.getLast?_eq_getLast _ hnil]
        exact h16 _ (List.getLast_mem hnil)
    rw [sub_self, zero_mul, add_zero, Int.mul_tdiv_cancel _ hout0]
    exact toInt16_eq_self hlast16.1 hlast16.2

/-- C9 (witness): instantiating the amended statement at a one-sample input
and the 8 kHz → 16 kHz rates used by the bridge. -/
theorem c9_resample_length_clamp_witness :
    (resampleLinear [5] 8000 16000).length
      = max 1 (⌊((([5] : List Int).length * 16000 : ℕ) : ℚ) / ((8000 : ℕ) : ℚ) + 1/2⌋).toNat :=
  (c9_resample_length_clamp [5] 8000 16000 (by decide) (by decide) (by decide) (by decide)).1

/-! ## Turn-pipeline helper lemmas -/

theorem runTtsLoop_audioDelta (tts : Nat → String → Option (List Nat)) (outRate : Nat) :
    ∀ (parts : List String) (i : Nat) (e : RelayEvent),
      e ∈ (runTtsLoop tts outRate i parts).1 → e.isAudioDelta = true := by
  intro parts
  induction parts with
  | nil => intro i e he; simp [runTtsLoop] at he
  | cons p rest ih =>
    intro i e he
    unfold runTtsLoop at he
    cases htts : tts i p with
    | none => rw [htts] at he; simp at he
    | some pcm =>
      rw [htts] at he
      dsimp only at he
      rcases List.mem_append.mp he with h1 | h2
      · rcases List.mem_map.mp h1 with ⟨c, _, rfl⟩
        rfl
      · exact ih (i + 1) e h2

theorem runTtsLoop_countP (tts : Nat → String → Option (List Nat)) (outRate : Nat)
    (parts : List String) (i : Nat) (q : RelayEvent → Bool)
    (hq : ∀ a : List Nat, q (.audioDelta a) = false) :
    (runTtsLoop tts outRate i parts).1.countP q = 0 := by
  rw [List.countP_eq_zero]
  intro e he
  have ha := runTtsLoop_audioDelta tts outRate parts i e he
  cases e <;> simp_all [RelayEvent.isAudioDelta, hq]

theorem countP_map_textDelta (l : List String) (q : RelayEvent → Bool)
    (hq : ∀ t : String, q (.textDelta t) = false) :
    (l.map RelayEvent.textDelta).countP q = 0 := by
  rw [List.countP_eq_zero]
  intro e he
  rcases List.mem_map.mp he with ⟨t, _, rfl⟩
  simp [hq]

theorem handleTurn_events_shape (ct : Nat) (u : String) (instr : Option String) (rid : String)
    (tts : Nat → String → Option (List Nat)) (outRate : Nat) (h : jsTrim u ≠ "") :
    (handleTurnFromText ct u instr rid tts outRate).events
      = ([.transcript (jsTrim u)]
          ++ (chunkText 80 (convoRespond (ct + 1) (jsTrim u) instr)).map RelayEvent.textDelta
          ++ [.textCompleted (convoRespond (ct + 1) (jsTrim u) instr)])
        ++ ((runTtsLoop tts outRate 1 (splitForTts (convoRespond (ct + 1) (jsTrim u) instr))).1
          ++ [.responseCompleted rid]) := by
  unfold handleTurnFromText
  rw [if_neg h]
  simp [List.append_assoc]

theorem countP_take_once (A B : List RelayEvent) (pa pt : RelayEvent → Bool)
    (hA : A.countP pa = 0) (hB : B.countP pt = 0) (hA1 : A.countP pt = 1) :
    ∀ n, 0 < ((A ++ B).take n).countP pa → ((A ++ B).take n).countP pt = 1 := by
  intro n hn
  by_cases h : n ≤ A.length
  · exfalso
    rw [List.take_append_of_le_length h] at hn
    have hle : (A.take n).countP pa ≤ A.countP pa := (List.take_sublist n A).countP_le pa
    omega
  · have h2 : n = A.length + (n - A.length) := by omega
    rw [h2, List.take_append] at hn ⊢
    rw [List.countP_append]
    have hle : (B.take (n - A.length)).countP pt ≤ B.countP pt :=
      (List.take_sublist _ B).countP_le pt
    omega

/-! ## Claim C2 — per-turn event discipline

The claim demands `text_completed` exactly once in *every* turn; an accepted
commit whose buffer is empty (or whose transcript trims to empty) emits only
`response_completed` — no `text_completed` at all.  The remaining discipline
(`response_completed` exactly once and last, `text_completed` once and
before any `audio_delta` whenever the transcript is non-empty) does hold. -/

/-- C2 (counterexample): a turn created by an accepted `commit` with an
empty inbound buffer ends with its `response_completed` terminator but emits
zero `text_completed` events. -/
theorem c2_counterexample :
    (stepMessage createSession (.commit none)).started = some (.fromCommit [] none) ∧
    (finishTurn (stepMessage createSession (.commit none)).state (.fromCommit [] none)
        (.ok "") "resp_1" (fun _ _ => none)).2.1 = [.responseCompleted "resp_1"] ∧
    (finishTurn (stepMessage createSession (.commit none)).state (.fromCommit [] none)
        (.ok "") "resp_1" (fun _ _ => none)).2.1.countP RelayEvent.isTextCompleted = 0 := by
  refine ⟨by decide, by decide, by decide⟩

/-- C2 (amended): every turn that reaches the response pipeline emits
`response_completed` exactly once, as its last event.  When the transcript
is non-empty, `text_completed` is emitted exactly once and before any
`audio_delta` (every prefix containing an `audio_delta` already contains the
`text_completed`); when the transcript is empty the turn emits only
`response_completed`. -/
theorem c2_turn_events (ct : Nat) (u : String) (instr : Option String) (rid : String)
    (tts : Nat → String → Option (List Nat)) (outRate : Nat) :
    (handleTurnFromText ct u instr rid tts outRate).events.countP
        RelayEvent.isResponseCompleted = 1 ∧
    (handleTurnFromText ct u instr rid tts outRate).events.getLast?
      = some (.responseCompleted rid) ∧
    (jsTrim u = "" →
      (handleTurnFromText ct u instr rid tts outRate).events = [.responseCompleted rid]) ∧
    (jsTrim u ≠ "" →
      (handleTurnFromText ct u instr rid tts outRate).events.countP
          RelayEvent.isTextCompleted = 1 ∧
      ∀ n, 0 < ((handleTurnFromText ct u instr rid tts outRate).events.take n).countP
            RelayEvent.isAudioDelta →
        ((handleTurnFromText ct u instr rid tts outRate).events.take n).countP
            RelayEvent.isTextCompleted = 1) := by
  by_cases hu : jsTrim u = ""
  · have hev : (handleTurnFromText ct u instr rid tts outRate).events
        = [.responseCompleted rid] := by
      unfold handleTurnFromText
      rw [if_pos hu]
    refine ⟨?_, ?_, fun _ => hev, fun hne => absurd hu hne⟩
    · rw [hev]; simp [List.countP_cons, RelayEvent.isResponseCompleted]
    · rw [hev]; simp
  · have hev := handleTurn_events_shape ct u instr rid tts outRate hu
    set resp := convoRespond (ct + 1) (jsTrim u) instr with hresp
    set tl := (runTtsLoop tts outRate 1 (splitForTts resp)).1 with htl
    set A := [RelayEvent.transcript (jsTrim u)]
        ++ (chunkText 80 resp).map RelayEvent.textDelta
        ++ [RelayEvent.textCompleted resp] with hA
    set B := tl ++ [RelayEvent.responseCompleted rid] with hB
    have hArc : A.countP RelayEvent.isResponseCompleted = 0 := by
      rw [hA, List.countP_append, List.countP_append,
        countP_map_textDelta _ _ (fun t => rfl)]
      simp [List.countP_cons, RelayEvent.isResponseCompleted]
    have hBrc : B.countP RelayEvent.isResponseCompleted = 1 := by
      rw [hB, List.countP_append, htl, runTtsLoop_countP _ _ _ _ _ (fun a => rfl)]
      simp [List.countP_cons, RelayEvent.isResponseCompleted]
    have hAtc : A.countP RelayEvent.isTextCompleted = 1 := by
      rw [hA, List.countP_append, List.countP_append,
        countP_map_textDelta _ _ (fun t => rfl)]
      simp [List.countP_cons, RelayEvent.isTextCompleted]
    have hBtc : B.countP RelayEvent.isTextCompleted = 0 := by
      rw [hB, List.countP_append, htl, runTtsLoop_countP _ _ _ _ _ (fun a => rfl)]
      simp [List.countP_cons, RelayEvent.isTextCompleted]
    have hAad : A.countP RelayEvent.isAudioDelta = 0 := by
      rw [hA, List.countP_append, List.countP_append,
        countP_map_textDelta _ _ (fun t => rfl)]
      simp [List.countP_cons, RelayEvent.isAudioDelta]
    refine ⟨?_, ?_, fun h => absurd h hu, fun _ => ⟨?_, ?_⟩⟩
    · rw [hev, List.countP_append, hArc, hBrc]
    · rw [hev, hB, ← List.append_assoc, List.getLast?_concat]
    · rw [hev, List.countP_append, hAtc, hBtc]
    · rw [hev]
      exact countP_take_once A B RelayEvent.isAudioDelta RelayEvent.isTextCompleted
        hAad hBtc hAtc

/-- C2 (witness): a concrete non-empty text turn emits exactly one
`text_completed`. -/
theorem c2_turn_events_witness :
    (handleTurnFromText 0 "hi" none "resp_2" (fun _ _ => some [0, 1]) 24000).events.countP
        RelayEvent.isTextCompleted = 1 :=
  ((c2_turn_events 0 "hi" none "resp_2" (fun _ _ => some [0, 1]) 24000).2.2.2 (by decide)).1

/-! ## Claim C5 — TTS subprocess failure

The claim says a TTS failure makes the session emit an `error` event.  The
source catches the failure, logs a `tts_error` warning, emits *no* `error`
event, skips the remaining audio, and emits `response_completed`
unconditionally ("allow session to continue even if TTS fails"). -/

/-- The `logs` of a non-empty-transcript turn record whether the TTS catch
block ran. -/
theorem handleTurn_logs (ct : Nat) (u : String) (instr : Option String) (rid : String)
    (tts : Nat → String → Option (List Nat)) (outRate : Nat) (h : jsTrim u ≠ "") :
    (handleTurnFromText ct u instr rid tts outRate).logs
      = if (runTtsLoop tts outRate 1
            (splitForTts (convoRespond (ct + 1) (jsTrim u) instr))).2
        then ["tts_error"] else ["tts_done"] := by
  unfold handleTurnFromText
  rw [if_neg h]

set_option maxRecDepth 40000 in
/-- C5 (counterexample): a turn whose TTS subprocess fails emits no `error`
event at all (only a `tts_error` warning is logged) and still ends with
`response_completed` — contradicting the claimed `error` emission. -/
theorem c5_counterexample :
    (handleTurnFromText 0 "hi" none "resp_5" (fun _ _ => none) 24000).events.countP
        RelayEvent.isError = 0 ∧
    (handleTurnFromText 0 "hi" none "resp_5" (fun _ _ => none) 24000).logs = ["tts_error"] ∧
    (handleTurnFromText 0 "hi" none "resp_5" (fun _ _ => none) 24000).events.getLast?
      = some (.responseCompleted "resp_5") := by
  refine ⟨by decide, by decide, by decide⟩

/-- C5 (amended): in every turn with a non-empty transcript — in particular
whenever the TTS subprocess fails — no `error` event is emitted; when TTS
fails on the first part all audio of that turn is skipped and the turn logs
`tts_error` instead of emitting an event; and `response_completed` is
emitted unconditionally as the turn's last event. -/
theorem c5_tts_failure_behavior (ct : Nat) (u : String) (instr : Option String) (rid : String)
    (tts : Nat → String → Option (List Nat)) (outRate : Nat) (h : jsTrim u ≠ "") :
    (handleTurnFromText ct u instr rid tts outRate).events.countP RelayEvent.isError = 0 ∧
    (handleTurnFromText ct u instr rid tts outRate).events.countP
        RelayEvent.isResponseCompleted = 1 ∧
    (handleTurnFromText ct u instr rid tts outRate).events.getLast?
      = some (.responseCompleted rid) ∧
    ((∀ part, tts 1 part = none) →
      splitForTts (convoRespond (ct + 1) (jsTrim u) instr) ≠ [] →
      (handleTurnFromText ct u instr rid tts outRate).events.countP
          RelayEvent.isAudioDelta = 0 ∧
      (handleTurnFromText ct u instr rid tts outRate).logs = ["tts_error"]) := by
  have hev := handleTurn_events_shape ct u instr rid tts outRate h
  set resp := convoRespond (ct + 1) (jsTrim u) instr with hresp
  set tl := (runTtsLoop tts outRate 1 (splitForTts resp)).1 with htl
  set A := [RelayEvent.transcript (jsTrim u)]
      ++ (chunkText 80 resp).map RelayEvent.textDelta
      ++ [RelayEvent.textCompleted resp] with hA
  set B := tl ++ [RelayEvent.responseCompleted rid] with hB
  have hAerr : A.countP RelayEvent.isError = 0 := by
    rw [hA, List.countP_append, List.countP_append,
      countP_map_textDelta _ _ (fun t => rfl)]
    simp [List.countP_cons, RelayEvent.isError]
  have hBerr : B.countP RelayEvent.isError = 0 := by
    rw [hB, List.countP_append, htl, runTtsLoop_countP _ _ _ _ _ (fun a => rfl)]
    simp [List.countP_cons, RelayEvent.isError]
  have hArc : A.countP RelayEvent.isResponseCompleted = 0 := by
    rw [hA, List.countP_append, List.countP_append,
      countP_map_textDelta _ _ (fun t => rfl)]
    simp [List.countP_cons, RelayEvent.isResponseCompleted]
  have hBrc : B.countP RelayEvent.isResponseCompleted = 1 := by
    rw [hB, List.countP_append, htl, runTtsLoop_countP _ _ _ _ _ (fun a => rfl)]
    simp [List.countP_cons, RelayEvent.isResponseCompleted]
  have hAad : A.countP RelayEvent.isAudioDelta = 0 := by
    rw [hA, List.countP_append, List.countP_append,
      countP_map_textDelta _ _ (fun t => rfl)]
    simp [List.countP_cons, RelayEvent.isAudioDelta]
  refine ⟨?_, ?_, ?_, fun hfail hparts => ?_⟩
  · rw [hev, List.countP_append, hAerr, hBerr]
  · rw [hev, List.countP_append, hArc, hBrc]
  · rw [hev, hB, ← List.append_assoc, List.getLast?_concat]
  · obtain ⟨p, rest, hpr⟩ : ∃ p rest, splitForTts resp = p :: rest := by
      cases hsp : splitForTts resp with
      | nil => exact absurd hsp hparts
      | cons p r => exact ⟨p, r, rfl⟩
    have hpair : runTtsLoop tts outRate 1 (splitForTts resp) = ([], true) := by
      rw [hpr]
      unfold runTtsLoop
      rw [hfail p]
    have htlnil : tl = [] := by rw [htl, hpair]
    constructor
    · rw [hev, List.countP_append, hAad, hB, htlnil]
      simp [List.countP_cons, RelayEvent.isAudioDelta]
    · rw [handleTurn_logs ct u instr rid tts outRate h, ← hresp, hpair]
      simp

/-- C5 (witness): at a concrete turn with a first-part TTS failure, zero
`audio_delta` events are emitted. -/
theorem c5_tts_failure_behavior_witness :
    (handleTurnFromText 0 "hi" none "resp_6" (fun _ _ => none) 24000).events.countP
        RelayEvent.isAudioDelta = 0 :=
  ((c5_tts_failure_behavior 0 "hi" none "resp_6" (fun _ _ => none) 24000 (by decide)).2.2.2
    (fun _ => rfl) (by decide)).1

/-! ## Claim C7 — word-bounded text chunking

The greedy loop of `chunkText` starts a fresh chunk with the offending word
when the candidate exceeds 80 characters, but a single word longer than
80 characters is kept whole, so the "each chunk ≤ 80 characters" part of
the claim fails; the word-partition and ordering parts hold, and each chunk
is either within the bound or a single (over-long) word. -/

theorem joinSpace_append_singleton (w : String) :
    ∀ cur : List String, cur ≠ [] →
      joinSpace (cur ++ [w]) = joinSpace cur ++ " " ++ w := by
  intro cur
  induction cur with
  | nil => intro h; exact absurd rfl h
  | cons a as ih =>
    intro _
    cases as with
    | nil => simp [joinSpace]
    | cons b bs =>
      have hne : b :: bs ≠ [] := by simp
      show joinSpace (a :: ((b :: bs) ++ [w])) = joinSpace (a :: b :: bs) ++ " " ++ w
      rw [show joinSpace (a :: ((b :: bs) ++ [w]))
            = a ++ " " ++ joinSpace ((b :: bs) ++ [w]) from rfl]
      rw [ih hne]
      rw [show joinSpace (a :: b :: bs) = a ++ " " ++ joinSpace (b :: bs) from rfl]
      simp [String.append_assoc]

theorem chunkGroups_flatten (maxLen : Nat) :
    ∀ (ws cur : List String), (chunkGroups maxLen cur ws).flatten = cur ++ ws := by
  intro ws
  induction ws with
  | nil =>
    intro cur
    by_cases h : cur = [] <;> simp [chunkGroups, h]
  | cons w ws ih =>
    intro cur
    rw [show chunkGroups maxLen cur (w :: ws)
          = (let cand := if cur = [] then w else joinSpace cur ++ " " ++ w
             if strLen cand > maxLen ∧ cur ≠ [] then cur :: chunkGroups maxLen [w] ws
             else chunkGroups maxLen (cur ++ [w]) ws) from rfl]
    dsimp only
    by_cases hc : strLen (if cur = [] then w else joinSpace cur ++ " " ++ w) > maxLen ∧ cur ≠ []
    · rw [if_pos hc, List.flatten_cons, ih [w]]
      simp
    · rw [if_neg hc, ih (cur ++ [w])]
      simp

theorem chunkGroups_sizeOk (maxLen : Nat) :
    ∀ (ws cur : List String),
      (cur = [] ∨ strLen (joinSpace cur) ≤ maxLen ∨ cur.length = 1) →
      ∀ g ∈ chunkGroups maxLen cur ws,
        strLen (joinSpace g) ≤ maxLen ∨ g.length = 1 := by
  intro ws
  induction ws with
  | nil =>
    intro cur hcur g hg
    by_cases h : cur = []
    · simp [chunkGroups, h] at hg
    · simp only [chunkGroups, if_neg h, List.mem_singleton] at hg
      subst hg
      rcases hcur with h' | h' | h'
      · exact absurd h' h
      · exact .inl h'
      · exact .inr h'
  | cons w ws ih =>
    intro cur hcur g hg
    rw [show chunkGroups maxLen cur (w :: ws)
          = (let cand := if cur = [] then w else joinSpace cur ++ " " ++ w
             if strLen cand > maxLen ∧ cur ≠ [] then cur :: chunkGroups maxLen [w] ws
             else chunkGroups maxLen (cur ++ [w]) ws) from rfl] at hg
    dsimp only at hg
    by_cases hc : strLen (if cur = [] then w else joinSpace cur ++ " " ++ w) > maxLen ∧ cur ≠ []
    · rw [if_pos hc] at hg
      rcases List.mem_cons.mp hg with rfl | hg'
      · rcases hcur with h' | h' | h'
        · exact absurd h' hc.2
        · exact .inl h'
        · exact .inr h'
      · exact ih [w] (.inr (.inr rfl)) g hg'
    · rw [if_neg hc] at hg
      refine ih (cur ++ [w]) ?_ g hg
      by_cases hnil : cur = []
      · subst hnil
        exact .inr (.inr (by simp))
      · have hcurne : cur ≠ [] := hnil
        have hle : strLen (joinSpace cur ++ " " ++ w) ≤ maxLen := by
          rcases not_and_or.mp hc with h1 | h2
          · rw [if_neg hnil] at h1
            omega
          · exact absurd hcurne h2
        refine .inr (.inl ?_)
        rw [joinSpace_append_singleton w cur hcurne]
        exact hle

set_option maxRecDepth 40000 in
/-- C7 (counterexample): a reply that is one 81-character word produces a
single chunk of length 81, violating the claimed ≤ 80 bound (such a word is
reachable: the deterministic reply embeds the user text verbatim). -/
theorem c7_counterexample :
    chunkText 80 (String.mk (List.replicate 81 'a'))
      = [String.mk (List.replicate 81 'a')] ∧
    strLen (String.mk (List.replicate 81 'a')) = 81 := by
  refine ⟨by decide, by decide⟩

/-- C7 (amended): in every turn with a non-empty transcript, the `text_delta`
payloads are exactly `chunkText 80` of the assistant reply; the chunks
partition the reply's words in order; each chunk is ≤ 80 characters or is a
single word; and exactly one `text_completed` carrying the full reply
follows. -/
theorem c7_chunking (ct : Nat) (u : String) (instr : Option String) (rid : String)
    (tts : Nat → String → Option (List Nat)) (outRate : Nat) (h : jsTrim u ≠ "") :
    (handleTurnFromText ct u instr rid tts outRate).events.filterMap
        RelayEvent.textDeltaPayload
      = chunkText 80 (convoRespond (ct + 1) (jsTrim u) instr) ∧
    (handleTurnFromText ct u instr rid tts outRate).events.filterMap
        RelayEvent.textCompletedPayload
      = [convoRespond (ct + 1) (jsTrim u) instr] ∧
    (chunkGroups 80 [] (wordsOf (convoRespond (ct + 1) (jsTrim u) instr))).flatten
      = wordsOf (convoRespond (ct + 1) (jsTrim u) instr) ∧
    (∀ c ∈ chunkText 80 (convoRespond (ct + 1) (jsTrim u) instr),
      strLen c ≤ 80 ∨ ∃ w ∈ wordsOf (convoRespond (ct + 1) (jsTrim u) instr), c = w) := by
  have hev := handleTurn_events_shape ct u instr rid tts outRate h
  set resp := convoRespond (ct + 1) (jsTrim u) instr with hresp
  refine ⟨?_, ?_, ?_, ?_⟩
  · rw [hev]
    have htts : (runTtsLoop tts outRate 1 (splitForTts resp)).1.filterMap
        RelayEvent.textDeltaPayload = [] := by
      rw [List.filterMap_eq_nil_iff]
      intro e he
      have ha := runTtsLoop_audioDelta tts outRate (splitForTts resp) 1 e he
      cases e <;> simp_all [RelayEvent.isAudioDelta, RelayEvent.textDeltaPayload]
    rw [List.filterMap_append, List.filterMap_append, List.filterMap_append,
      List.filterMap_append, htts]
    rw [List.filterMap_map,
      show (RelayEvent.textDeltaPayload ∘ RelayEvent.textDelta) = some from
        funext fun t => rfl]
    simp [RelayEvent.textDeltaPayload]
  · rw [hev]
    have htts : (runTtsLoop tts outRate 1 (splitForTts resp)).1.filterMap
        RelayEvent.textCompletedPayload = [] := by
      rw [List.filterMap_eq_nil_iff]
      intro e he
      have ha := runTtsLoop_audioDelta tts outRate (splitForTts resp) 1 e he
      cases e <;> simp_all [RelayEvent.isAudioDelta, RelayEvent.textCompletedPayload]
    rw [List.filterMap_append, List.filterMap_append, List.filterMap_append,
      List.filterMap_append, htts]
    rw [List.filterMap_map,
      show (RelayEvent.textCompletedPayload ∘ RelayEvent.textDelta) = (fun _ => none) from
        funext fun t => rfl]
    simp [RelayEvent.textCompletedPayload]
  · exact chunkGroups_flatten 80 (wordsOf resp) []
  · intro c hc
    rcases List.mem_map.mp hc with ⟨g, hg, rfl⟩
    rcases chunkGroups_sizeOk 80 (wordsOf resp) [] (.inl rfl) g hg with hle | hone
    · exact .inl hle
    · right
      obtain ⟨w, rfl⟩ : ∃ w, g = [w] := by
        cases g with
        | nil => simp at hone
        | cons a as =>
          cases as with
          | nil => exact ⟨a, rfl⟩
          | cons b bs => simp at hone
      refine ⟨w, ?_, rfl⟩
      have hmem : w ∈ (chunkGroups 80 [] (wordsOf resp)).flatten :=
        List.mem_flatten.mpr ⟨[w], hg, by simp⟩
      rw [chunkGroups_flatten 80 (wordsOf resp) []] at hmem
      exact hmem

/-- C7 (witness): for a concrete short turn, the chunks partition the
reply's words. -/
theorem c7_chunking_witness :
    (chunkGroups 80 [] (wordsOf (convoRespond (0 + 1) (jsTrim "hi") none))).flatten
      = wordsOf (convoRespond (0 + 1) (jsTrim "hi") none) :=
  (c7_chunking 0 "hi" none "resp_7" (fun _ _ => some []) 24000 (by decide)).2.2.1

/-! ## Claim C1 — one turn in flight

Only `handleCommit` guards and sets `inFlight`; the `text` handler calls the
turn pipeline directly without ever touching it.  So a commit arriving while
a commit turn is in flight is ignored with `commit_ignored` (as claimed),
but a `text` turn does not set `inFlight=true`, and a commit arriving during
a text-initiated turn is accepted — a second turn in flight. -/

/-- C1 (counterexample): after a `text` event is accepted (a turn is
started), `inFlight` is still `false`, and a `commit` arriving while that
text turn is pending is accepted as a second concurrent turn with no
`commit_ignored` log — refuting both "`text` sets `inFlight=true`" and "any
further commit while a turn is in flight is ignored". -/
theorem c1_counterexample :
    (stepMessage createSession (.text "hello")).started = some (.fromText "hello") ∧
    (stepMessage createSession (.text "hello")).state.inFlight = false ∧
    (stepMessage (stepMessage createSession (.text "hello")).state (.commit none)).started
      = some (.fromCommit [] none) ∧
    (stepMessage (stepMessage createSession (.text "hello")).state (.commit none)).logs
      = ["commit_received"] := by
  refine ⟨by decide, by decide, by decide, by decide⟩

/-- C1 (amended): accepting a `commit` in the idle state sets `inFlight=true`
and starts the turn; a further `commit` while `inFlight` is ignored with a
logged `commit_ignored` and no user-visible event; but a `text` event starts
its turn *without* modifying the session state — `inFlight` is never set by
the text path, so the at-most-one-turn guard only covers commit-initiated
turns. -/
theorem c1_turn_in_flight (s : BackendSession) (instr : Option String) (t : String) :
    (s.inFlight = true →
      stepMessage s (.commit instr)
        = { state := s, events := [], logs := ["commit_received", "commit_ignored"],
            started := none, closes := false }) ∧
    (s.inFlight = false →
      (stepMessage s (.commit instr)).state.inFlight = true ∧
      (stepMessage s (.commit instr)).started
        = some (.fromCommit s.bufferedPcm.flatten instr)) ∧
    (jsTrim t ≠ "" →
      (stepMessage s (.text t)).state = s ∧
      (stepMessage s (.text t)).started = some (.fromText (jsTrim t))) := by
  refine ⟨fun hf => ?_, fun hf => ?_, fun ht => ?_⟩
  · simp [stepMessage, handleCommitStart, hf]
  · refine ⟨?_, ?_⟩ <;> simp [stepMessage, handleCommitStart, hf, consumeBufferedAudio]
  · refine ⟨?_, ?_⟩ <;> simp [stepMessage, ht]

/-- C1 (witness): a concrete in-flight session ignores a commit wholesale. -/
theorem c1_turn_in_flight_witness :
    stepMessage
        { inFlight := true, bufferedPcm := [[7]], bufferedBytes := 1,
          bufferedChunks := 1, convoTurn := 0, outputRate := 24000 } (.commit none)
      = { state :=
            { inFlight := true, bufferedPcm := [[7]], bufferedBytes := 1,
              bufferedChunks := 1, convoTurn := 0, outputRate := 24000 },
          events := [], logs := ["commit_received", "commit_ignored"],
          started := none, closes := false } :=
  (c1_turn_in_flight _ none "x").1 rfl

/-! ## Claim C10 — ignored commit leaves the buffer intact -/

theorem appendChunks_spec (cs : List (List Nat)) : ∀ s : BackendSession,
    (appendChunks s cs).bufferedPcm = s.bufferedPcm ++ cs ∧
    (appendChunks s cs).inFlight = s.inFlight := by
  induction cs with
  | nil => intro s; simp [appendChunks]
  | cons c cs ih =>
    intro s
    have h := ih (appendAudioChunk s c)
    refine ⟨?_, ?_⟩
    · rw [show appendChunks s (c :: cs) = appendChunks (appendAudioChunk s c) cs from rfl,
        h.1]
      simp [appendAudioChunk]
    · rw [show appendChunks s (c :: cs) = appendChunks (appendAudioChunk s c) cs from rfl,
        h.2]
      rfl

theorem finishTurn_fromCommit_state (s : BackendSession) (audio : List Nat)
    (instr0 : Option String) (asr : AsrOutcome) (rid : String)
    (tts : Nat → String → Option (List Nat)) :
    (finishTurn s (.fromCommit audio instr0) asr rid tts).1.inFlight = false ∧
    (finishTurn s (.fromCommit audio instr0) asr rid tts).1.bufferedPcm = s.bufferedPcm := by
  unfold finishTurn
  dsimp only
  by_cases ha : audio = []
  · rw [if_pos ha]
    exact ⟨rfl, rfl⟩
  · rw [if_neg ha]
    cases asr <;> exact ⟨rfl, rfl⟩

theorem handleCommitStart_accepted (s : BackendSession) (instr : Option String)
    (h : s.inFlight = false) :
    (handleCommitStart s instr).started = some (.fromCommit s.bufferedPcm.flatten instr) := by
  unfold handleCommitStart
  rw [if_neg (by simp [h])]
  rfl

/-- C10: a `commit` arriving while a turn is in flight leaves the session
state — in particular the inbound PCM buffer — completely unchanged and
emits nothing; after the in-flight turn finishes (resetting `inFlight`), the
next accepted commit consumes everything buffered before and during that
turn, in order. -/
theorem c10_ignored_commit_buffer (s : BackendSession) (instr instr0 instr2 : Option String)
    (cs : List (List Nat)) (audio : List Nat) (asr : AsrOutcome) (rid : String)
    (tts : Nat → String → Option (List Nat)) (h : s.inFlight = true) :
    (stepMessage s (.commit instr)).state = s ∧
    (stepMessage s (.commit instr)).events = [] ∧
    (stepMessage s (.commit instr)).started = none ∧
    (handleCommitStart
        (finishTurn (appendChunks (stepMessage s (.commit instr)).state cs)
          (.fromCommit audio instr0) asr rid tts).1 instr2).started
      = some (.fromCommit ((s.bufferedPcm ++ cs).flatten) instr2) := by
  have hstep : stepMessage s (.commit instr)
      = { state := s, events := [], logs := ["commit_received", "commit_ignored"],
          started := none, closes := false } := by
    simp [stepMessage, handleCommitStart, h]
  refine ⟨by rw [hstep], by rw [hstep], by rw [hstep], ?_⟩
  rw [hstep]
  have hfin := finishTurn_fromCommit_state (appendChunks s cs) audio instr0 asr rid tts
  rw [handleCommitStart_accepted _ instr2 hfin.1, hfin.2, (appendChunks_spec cs s).1]

/-- C10 (witness): with two queued chunks before the ignored commit and one
appended during the turn, the next accepted commit consumes all three in
order. -/
theorem c10_ignored_commit_buffer_witness :
    (handleCommitStart
        (finishTurn (appendChunks (stepMessage
            { inFlight := true, bufferedPcm := [[1], [2]], bufferedBytes := 2,
              bufferedChunks := 2, convoTurn := 0, outputRate := 24000 }
            (.commit none)).state [[3]])
          (.fromCommit [9] none) (.err "boom") "resp_10" (fun _ _ => none)).1 none).started
      = some (.fromCommit ((([[1], [2]] : List (List Nat)) ++ [[3]]).flatten) none) :=
  (c10_ignored_commit_buffer
    { inFlight := true, bufferedPcm := [[1], [2]], bufferedBytes := 2,
      bufferedChunks := 2, convoTurn := 0, outputRate := 24000 }
    none none none [[3]] [9] (.err "boom") "resp_10" (fun _ _ => none) rfl).2.2.2

/-! ## Claim C4 — ASR failure with one text-output retry -/

/-- C4: when the primary whisper.cpp run exits non-zero, exactly one more
invocation of the same binary is made, with the `-otxt` text-output fallback
flags; when that also fails, the commit turn emits a single `error` event
carrying the thrown ASR message, emits no `response_completed`, resets
`inFlight`, and the session keeps accepting later messages. -/
theorem c4_asr_retry_failure (modelPath wavPath outBase : String) (env : AsrEnv)
    (s : BackendSession) (audio : List Nat) (instr : Option String) (rid : String)
    (tts : Nat → String → Option (List Nat))
    (h1 : env.firstExec.code ≠ 0) (h2 : env.secondExec.code ≠ 0) (ha : audio ≠ []) :
    (transcribePcm16kMono modelPath wavPath outBase env).1
      = [whisperJsonArgs modelPath wavPath outBase, whisperTxtArgs modelPath wavPath outBase] ∧
    (transcribePcm16kMono modelPath wavPath outBase env).2
      = .error (whisperFailureMessage env) ∧
    (finishTurn s (.fromCommit audio instr) (asrOutcomeOfEnv modelPath wavPath outBase env)
        rid tts).2.1 = [.error (whisperFailureMessage env)] ∧
    (finishTurn s (.fromCommit audio instr) (asrOutcomeOfEnv modelPath wavPath outBase env)
        rid tts).2.1.countP RelayEvent.isResponseCompleted = 0 ∧
    (finishTurn s (.fromCommit audio instr) (asrOutcomeOfEnv modelPath wavPath outBase env)
        rid tts).1 = { s with inFlight := false } ∧
    (stepMessage (finishTurn s (.fromCommit audio instr)
        (asrOutcomeOfEnv modelPath wavPath outBase env) rid tts).1 (.text "hi")).started
      = some (.fromText "hi") := by
  have htr : transcribePcm16kMono modelPath wavPath outBase env
      = ([whisperJsonArgs modelPath wavPath outBase, whisperTxtArgs modelPath wavPath outBase],
         .error (whisperFailureMessage env)) := by
    unfold transcribePcm16kMono
    rw [if_neg h1, if_neg h2]
  have hasr : asrOutcomeOfEnv modelPath wavPath outBase env
      = .err (whisperFailureMessage env) := by
    unfold asrOutcomeOfEnv
    rw [htr]
  have hfin : finishTurn s (.fromCommit audio instr)
        (asrOutcomeOfEnv modelPath wavPath outBase env) rid tts
      = ({ s with inFlight := false },
         [.error (whisperFailureMessage env)], ["asr_error"]) := by
    rw [hasr]
    unfold finishTurn
    dsimp only
    rw [if_neg ha]
  refine ⟨by rw [htr], by rw [htr], by rw [hfin], ?_, by rw [hfin], ?_⟩
  · rw [hfin]
    simp [List.countP_cons, RelayEvent.isResponseCompleted]
  · rw [hfin]
    unfold stepMessage
    dsimp only
    rw [if_neg (by decide : ¬(jsTrim "hi" = ""))]
    rw [show jsTrim "hi" = "hi" from by decide]

/-- C4 (witness): a concrete doubly-failing environment performs exactly the
two invocations, JSON-output then text-output. -/
theorem c4_asr_retry_failure_witness :
    (transcribePcm16kMono "m" "w" "o"
        { firstExec := { code := 1, stdout := "", stderr := "" },
          secondExec := { code := 1, stdout := "", stderr := "" },
          jsonText := "", txtText := "" }).1
      = [whisperJsonArgs "m" "w" "o", whisperTxtArgs "m" "w" "o"] :=
  (c4_asr_retry_failure "m" "w" "o"
    { firstExec := { code := 1, stdout := "", stderr := "" },
      secondExec := { code := 1, stdout := "", stderr := "" },
      jsonText := "", txtText := "" }
    createSession [1] none "r" (fun _ _ => none) (by decide) (by decide) (by decide)).1

/-! ## Claim C6 — log redaction

Only the phone-bridge logger replaces audio-keyed values with
`[REDACTED_AUDIO]` and long base64 strings with `[REDACTED_BASE64]`.  The
backend logger's `redact` only masks bearer-token / api-key / token
patterns, so an audio payload logged through the backend logger passes
through unchanged — the claim does not hold for "every log line emitted by
the system". -/

set_option maxRecDepth 200000 in
/-- C6 (counterexample): a 256-character base64 string stored under the key
`audio` survives the backend logger's redaction verbatim, although it
matches both redaction rules of the claim. -/
theorem c6_counterexample :
    backendSafeMeta [("audio", .str (String.mk (List.replicate 256 'A')))]
      = [("audio", .str (String.mk (List.replicate 256 'A')))] ∧
    looksLikeBase64Audio (String.mk (List.replicate 256 'A')) = true ∧
    audioRedactKeys.contains "audio" = true := by
  refine ⟨by decide, by decide, by decide⟩

/-- C6 (amended): the phone-bridge logger replaces every string value under
a key in {audio, payload, pcm, pcm16, mulaw} with `[REDACTED_AUDIO]` and
every other string value matching the base64 heuristic (length ≥ 256,
base64 charset, no whitespace) with `[REDACTED_BASE64]`; the backend logger
applies only the token-masking chain and performs neither of these
redactions. -/
theorem c6_redaction (key v : String) :
    (audioRedactKeys.contains key = true →
      phoneRedact key (.str v) = .str "[REDACTED_AUDIO]") ∧
    (audioRedactKeys.contains key = false → looksLikeBase64Audio v = true →
      phoneRedact key (.str v) = .str "[REDACTED_BASE64]") ∧
    backendRedact (.str v) = .str (maskTokens v) := by
  refine ⟨fun hk => ?_, fun hk hb => ?_, rfl⟩
  · simp only [phoneRedact]
    rw [hk]
    simp
  · simp only [phoneRedact, phoneRedactString]
    rw [hk, hb]
    simp

set_option maxRecDepth 8000 in
/-- C6 (witness): concrete redactions through the phone-bridge logger. -/
theorem c6_redaction_witness :
    phoneRedact "audio" (.str "hello") = .str "[REDACTED_AUDIO]" ∧
    phoneRedact "msg" (.str (String.mk (List.replicate 256 'A')))
      = .str "[REDACTED_BASE64]" :=
  ⟨(c6_redaction "audio" "hello").1 (by decide),
   (c6_redaction "msg" (String.mk (List.replicate 256 'A'))).2.1 (by decide) (by decide)⟩

end Gecto
